import Mathlib

/-!
Verification of the mapping/search engine of the pnl-map repository
(QuickBooks to Popeyes spreadsheet converter).

The embedded code is the conversion core in `src/src/wizard.pyw`
(`FinishPage.initializePage`): the source-indexing loop, and the
destination-row transfer loop.  The match resolver `search_map` and the
rule parser live in `src/mapper.py`, which is not part of the available
sources; the resolver is therefore modelled from the specification
(section 4.3) and marked as such in its doc comment.

Modelling conventions:
  - Spreadsheet cells are `Value`: absent/None, a string, or an integer.
    Python truthiness of a cell becomes `Value.truthy`.
  - The key columns C, D, E of a source row are modelled as `String`
    (empty string standing for an empty cell), because row keys are used
    by the resolver as strings; Python `or` on such values is `pyOr`.
  - The insertion-ordered Python `dict` becomes an association list,
    updated by `dictInsert` (in-place update of the first matching key,
    append otherwise), which agrees with Python dict update on the
    duplicate-free lists the indexer builds.
  - The side effects of the transfer loop (`worksheet_set_number_format`,
    `worksheet_cell_set_raw`) become an explicit list of `Effect` events
    in program order.
-/

namespace PnlMap

/-- A spreadsheet cell value: empty cell / None, a string, or a number. -/
inductive Value where
  | vnone
  | vstr (s : String)
  | vint (n : Int)
deriving DecidableEq, Repr

/-- Python truthiness of a cell value. -/
def Value.truthy : Value → Bool
  | .vnone => false
  | .vstr s => s ≠ ""
  | .vint n => n ≠ 0

/-- The value triple carried from source columns F, G, H. -/
abbrev VT := Value × Value × Value

/-- Python `a or b` on strings (empty string is falsy). -/
def pyOr (a b : String) : String := if a = "" then b else a

/-- One source row as consumed by the indexing loop of
`FinishPage.initializePage`: 1-based row number, key columns C, D, E and
value columns F, G, H. -/
structure SrcRow where
  row : Nat
  C : String
  D : String
  E : String
  F : Value
  G : Value
  H : Value

/-- `key = data["E"] or data["D"] or data["C"] or str(row)`
(wizard.pyw line 278). -/
def rowKey (r : SrcRow) : String :=
  pyOr r.E (pyOr r.D (pyOr r.C (toString r.row)))

/-- `values = data["F"], data["G"], data["H"]` (wizard.pyw line 279). -/
def rowValues (r : SrcRow) : VT := (r.F, r.G, r.H)

/-- `any(values)` (wizard.pyw line 281). -/
def rowHasValue (r : SrcRow) : Bool :=
  r.F.truthy || r.G.truthy || r.H.truthy

/-- The insertion-ordered source index `source_data`. -/
abbrev SourceIndex := List (String × VT)

/-- Association-list lookup, mirroring Python dict indexing. -/
def lookupIdx : SourceIndex → String → Option VT
  | [], _ => none
  | (k1, v) :: rest, k => if k1 = k then some v else lookupIdx rest k

/-- Python dict assignment `d[k] = v`: replace in place the entry with
key `k` when present (keeping its insertion position), append otherwise.
The indexer only ever builds duplicate-free key lists, on which this
matches Python exactly. -/
def dictInsert : SourceIndex → String → VT → SourceIndex
  | [], k, v => [(k, v)]
  | (k1, v1) :: rest, k, v =>
    if k1 = k then (k, v) :: rest else (k1, v1) :: dictInsert rest k v

/-- Body of the source indexing loop (wizard.pyw lines 278-282):
compute key and values, and enter the row only when `any(values)`. -/
def indexStep (acc : SourceIndex) (r : SrcRow) : SourceIndex :=
  if rowHasValue r then dictInsert acc (rowKey r) (rowValues r) else acc

/-- The source indexing loop over all consumed rows. -/
def buildIndex (rows : List SrcRow) : SourceIndex :=
  rows.foldl indexStep []

/-! ### Regular expressions

`search_map` lives in `src/mapper.py`, which is absent from the sources;
its `re` method is modelled with a small regular-expression core:
literal characters, escaped characters, `.`, and the quantifiers `*`,
`+`, `?`, with search (not full-match) semantics.  Patterns outside this
core, and ill-formed patterns such as a leading `*`, fail to compile. -/

/-- Regular-expression syntax tree. -/
inductive Regex where
  | failR
  | emptyR
  | charR (c : Char)
  | dotR
  | seqR (a b : Regex)
  | altR (a b : Regex)
  | starR (a : Regex)
deriving DecidableEq, Repr

/-- Does the regular expression accept the empty word? -/
def nullable : Regex → Bool
  | .failR => false
  | .emptyR => true
  | .charR _ => false
  | .dotR => false
  | .seqR a b => nullable a && nullable b
  | .altR a b => nullable a || nullable b
  | .starR _ => true

/-- Brzozowski derivative of a regular expression by a character. -/
def deriv : Regex → Char → Regex
  | .failR, _ => .failR
  | .emptyR, _ => .failR
  | .charR c, d => if c = d then .emptyR else .failR
  | .dotR, _ => .emptyR
  | .seqR a b, d =>
    if nullable a then .altR (.seqR (deriv a d) b) (deriv b d)
    else .seqR (deriv a d) b
  | .altR a b, d => .altR (deriv a d) (deriv b d)
  | .starR a, d => .seqR (deriv a d) (.starR a)

/-- Does some prefix of the word match the regular expression? -/
def matchesHere : Regex → List Char → Bool
  | r, [] => nullable r
  | r, c :: cs => nullable r || matchesHere (deriv r c) cs

/-- Does the regular expression match starting at some position? -/
def searchAux : Regex → List Char → Bool
  | r, [] => nullable r
  | r, s@(_ :: cs) => matchesHere r s || searchAux r cs

/-- Python `re.search` semantics: match anywhere in the string. -/
def rsearch (r : Regex) (s : String) : Bool := searchAux r s.data

/-- Is the character a quantifier? -/
def metaQuant (c : Char) : Bool := c = '*' || c = '+' || c = '?'

/-- Metacharacters outside the modelled core; patterns using them are
rejected at compile time. -/
def metaBad (c : Char) : Bool :=
  c = '(' || c = ')' || c = '[' || c = ']' || c = '|' || c = '^' || c = '$'

/-- Fuel-indexed pattern parser; each step consumes at least one
character, so `length + 1` fuel always suffices. -/
def parseItemsFuel : Nat → List Char → Option Regex
  | 0, _ => none
  | _ + 1, [] => some .emptyR
  | fuel + 1, c :: rest =>
    if metaQuant c then none
    else if metaBad c then none
    else
      let ar : Option (Regex × List Char) :=
        if c = '\\' then
          match rest with
          | [] => none
          | d :: rest2 => some (.charR d, rest2)
        else if c = '.' then some (.dotR, rest)
        else some (.charR c, rest)
      match ar with
      | none => none
      | some (a, rest2) =>
        match rest2 with
        | '*' :: rest3 => (parseItemsFuel fuel rest3).map (fun t => .seqR (.starR a) t)
        | '+' :: rest3 => (parseItemsFuel fuel rest3).map (fun t => .seqR (.seqR a (.starR a)) t)
        | '?' :: rest3 => (parseItemsFuel fuel rest3).map (fun t => .seqR (.altR a .emptyR) t)
        | _ => (parseItemsFuel fuel rest2).map (fun t => .seqR a t)

/-- Compile a pattern string, `none` on an invalid pattern. -/
def compileRegex (s : String) : Option Regex :=
  parseItemsFuel (s.data.length + 1) s.data

/-! ### Match resolver -/

/-- The seven search methods of the rule file format. -/
inductive Method where
  | exact
  | starts
  | ends
  | contains
  | re
  | set
  | each
deriving DecidableEq, Repr

/-- Is the first list an initial run of the second? -/
def listStarts : List Char → List Char → Bool
  | [], _ => true
  | _ :: _, [] => false
  | c :: cs, d :: ds => c = d && listStarts cs ds

/-- Python `key.startswith(term)`: `strStarts key term`. -/
def strStarts (s p : String) : Bool := listStarts p.data s.data

/-- Python `key.endswith(term)`: `strEnds key term`. -/
def strEnds (s p : String) : Bool := listStarts p.data.reverse s.data.reverse

/-- Does the needle occur as a contiguous run of the hay? -/
def listContainsSub : List Char → List Char → Bool
  | [], n => n.isEmpty
  | hay@(_ :: rest), n => listStarts n hay || listContainsSub rest n

/-- Substring containment test (Python `needle in hay`). -/
def strContainsSub (hay needle : String) : Bool :=
  listContainsSub hay.data needle.data

/-- Python `term.split(",")`: split on every comma, keeping empty
pieces; the empty string yields one empty piece. -/
def splitCommaAux : List Char → List Char → List String
  | [], acc => [String.mk acc.reverse]
  | c :: cs, acc =>
    if c = ',' then String.mk acc.reverse :: splitCommaAux cs []
    else splitCommaAux cs (c :: acc)

/-- Split a string on commas. -/
def splitComma (s : String) : List String := splitCommaAux s.data []

/-- First entry of the insertion-ordered index whose key satisfies the
test; `none` when no key does. -/
def firstMatch : SourceIndex → (String → Bool) → Option VT
  | [], _ => none
  | (k, v) :: rest, p => if p k then some v else firstMatch rest p

/-- Modelled from the spec: `search_map` is defined in `src/mapper.py`,
which is not among the available sources; this definition follows
specification section 4.3.  Iteration is in insertion order, first match
wins; `exact` is string equality, `starts` a prefix test, `ends` a
suffix test, `contains` a substring test, `re` a regular-expression
search (no match when the pattern does not compile), `set` returns the
literal term in all three positions, and `each` splits the term on
commas into up to three positional values, missing positions empty. -/
def search_map (source_index : SourceIndex) (m : Method) (term : String) : Option VT :=
  match m with
  | .exact => firstMatch source_index (fun k => k = term)
  | .starts => firstMatch source_index (fun k => strStarts k term)
  | .ends => firstMatch source_index (fun k => strEnds k term)
  | .contains => firstMatch source_index (fun k => strContainsSub k term)
  | .re =>
    match compileRegex term with
    | some r => firstMatch source_index (fun k => rsearch r k)
    | none => none
  | .set => some (.vstr term, .vstr term, .vstr term)
  | .each =>
    let parts := splitComma term
    some (.vstr (parts.getD 0 ""), .vstr (parts.getD 1 ""), .vstr (parts.getD 2 ""))

/-! ### Transfer driver -/

/-- The parsed map file `map_dict`: keyword to (method, term). -/
abbrev RuleSet := List (String × Method × String)

/-- Python dict lookup on the rule set. -/
def lookupRule : RuleSet → String → Option (Method × String)
  | [], _ => none
  | (k1, mt) :: rest, k => if k1 = k then some mt else lookupRule rest k

/-- One destination row as consumed by the transfer loop: 1-based row
number and the keyword read from column A (the other columns are read
but unused by the loop). -/
structure DstRow where
  row : Nat
  A : String

/-- A side effect on the destination worksheet. -/
inductive Effect where
  | setNumberFormat (col : String) (row : Nat) (fmt : String)
  | setRaw (col : String) (row : Nat) (v : Value)
deriving DecidableEq, Repr

/-- The fixed numeric display format (wizard.pyw line 295). -/
def NUMBER_FORMAT : String := "#,##0.00;-#,##0.00"

/-- Body of the destination transfer loop (wizard.pyw lines 284-312),
as the list of worksheet side effects it performs, in program order:
skip on empty keyword, skip on a keyword absent from `map_dict`, apply
the numeric format to columns B, D, F when `row > 5`, then either
zero-fill columns B, D, F when `search_map` finds nothing, or write the
three resolved values positionally. -/
def processRow (map_dict : RuleSet) (source_data : SourceIndex) (rd : DstRow) : List Effect :=
  let keyword := rd.A
  if keyword = "" then []
  else
    match lookupRule map_dict keyword with
    | none => []
    | some (method, term) =>
      let fmts : List Effect :=
        if rd.row > 5 then
          [.setNumberFormat "B" rd.row NUMBER_FORMAT,
           .setNumberFormat "D" rd.row NUMBER_FORMAT,
           .setNumberFormat "F" rd.row NUMBER_FORMAT]
        else []
      match search_map source_data method term with
      | none =>
        fmts ++ [.setRaw "B" rd.row (.vstr "0"),
                 .setRaw "D" rd.row (.vstr "0"),
                 .setRaw "F" rd.row (.vstr "0")]
      | some (v0, v1, v2) =>
        fmts ++ [.setRaw "B" rd.row v0,
                 .setRaw "D" rd.row v1,
                 .setRaw "F" rd.row v2]

/-- The whole transfer loop over the destination rows. -/
def runDriver (map_dict : RuleSet) (source_data : SourceIndex) (rows : List DstRow) : List Effect :=
  (rows.map (processRow map_dict source_data)).flatten

/-- The raw cell writes among a list of effects, in order. -/
def rawWrites : List Effect → List (String × Nat × Value)
  | [] => []
  | .setRaw c r v :: rest => (c, r, v) :: rawWrites rest
  | .setNumberFormat _ _ _ :: rest => rawWrites rest

/-- The number-format applications among a list of effects, in order. -/
def fmtWrites : List Effect → List (String × Nat × String)
  | [] => []
  | .setNumberFormat c r f :: rest => (c, r, f) :: fmtWrites rest
  | .setRaw _ _ _ :: rest => fmtWrites rest

/-! ### Helper lemmas -/

theorem lookupIdx_dictInsert_self (d : SourceIndex) (k : String) (v : VT) :
    lookupIdx (dictInsert d k v) k = some v := by
  induction d with
  | nil => simp [dictInsert, lookupIdx]
  | cons e rest ih =>
    obtain ⟨k1, v1⟩ := e
    by_cases h : k1 = k
    · simp [dictInsert, lookupIdx, h]
    · simp [dictInsert, lookupIdx, h, ih]

theorem lookupIdx_dictInsert_ne (d : SourceIndex) (k k2 : String) (v : VT)
    (h : k2 ≠ k) : lookupIdx (dictInsert d k v) k2 = lookupIdx d k2 := by
  have hne : ¬ k = k2 := fun hh => h hh.symm
  induction d with
  | nil => simp [dictInsert, lookupIdx, hne]
  | cons e rest ih =>
    obtain ⟨k1, v1⟩ := e
    by_cases h1 : k1 = k
    · subst h1
      simp [dictInsert, lookupIdx, hne]
    · simp [dictInsert, lookupIdx, h1, ih]

theorem indexStep_skip (acc : SourceIndex) (r : SrcRow)
    (h : rowHasValue r = false) : indexStep acc r = acc := by
  simp [indexStep, h]

theorem buildIndex_filter (rows : List SrcRow) :
    buildIndex rows = buildIndex (rows.filter rowHasValue) := by
  unfold buildIndex
  generalize ([] : SourceIndex) = acc
  induction rows generalizing acc with
  | nil => rfl
  | cons r rest ih =>
    by_cases h : rowHasValue r
    · simp [List.filter, h, List.foldl, ih]
    · simp only [Bool.not_eq_true] at h
      simp [List.filter, h, List.foldl, indexStep_skip _ _ h, ih]

theorem rawWrites_append (a b : List Effect) :
    rawWrites (a ++ b) = rawWrites a ++ rawWrites b := by
  induction a with
  | nil => rfl
  | cons e rest ih => cases e <;> simp [rawWrites, ih]

theorem fmtWrites_append (a b : List Effect) :
    fmtWrites (a ++ b) = fmtWrites a ++ fmtWrites b := by
  induction a with
  | nil => rfl
  | cons e rest ih => cases e <;> simp [fmtWrites, ih]

/-! ### Claim theorems -/

/-- C1: for every source row consumed by the Source Indexer, the index
key assigned to that row is the first truthy value among columns E, D,
C in that left-to-right priority order; if all three are falsy, the key
is the 1-based row number converted to a string. -/
theorem C1_row_key_priority (r : SrcRow) :
    (r.E ≠ "" → rowKey r = r.E)
    ∧ (r.E = "" → r.D ≠ "" → rowKey r = r.D)
    ∧ (r.E = "" → r.D = "" → r.C ≠ "" → rowKey r = r.C)
    ∧ (r.E = "" → r.D = "" → r.C = "" → rowKey r = toString r.row) := by
  unfold rowKey pyOr
  refine ⟨?_, ?_, ?_, ?_⟩ <;> intros <;> simp [*]

/-- Closed witness for C1 at a concrete row. -/
theorem C1_row_key_priority_witness :
    rowKey ⟨7, "", "", "", Value.vnone, Value.vnone, Value.vnone⟩ = "7" :=
  (C1_row_key_priority ⟨7, "", "", "", Value.vnone, Value.vnone, Value.vnone⟩).2.2.2
    rfl rfl rfl

/-- C2: a source row whose value columns F, G, H are all falsy is never
entered into the resulting SourceIndex (filtering such rows away does
not change the built index, and the loop body leaves the index
unchanged on them); a row with at least one truthy value column is
entered as SourceIndex[key] = (F, G, H), overwriting any earlier entry
with the same key and leaving every other key unchanged. -/
theorem C2_index_entry_condition :
    (∀ rows : List SrcRow, buildIndex rows = buildIndex (rows.filter rowHasValue))
    ∧ (∀ (acc : SourceIndex) (r : SrcRow), rowHasValue r = false → indexStep acc r = acc)
    ∧ (∀ (acc : SourceIndex) (r : SrcRow), rowHasValue r = true →
        lookupIdx (indexStep acc r) (rowKey r) = some (r.F, r.G, r.H))
    ∧ (∀ (acc : SourceIndex) (r : SrcRow) (k : String), rowHasValue r = true →
        k ≠ rowKey r → lookupIdx (indexStep acc r) k = lookupIdx acc k) := by
  refine ⟨buildIndex_filter, indexStep_skip, ?_, ?_⟩
  · intro acc r h
    simp [indexStep, h, rowValues, lookupIdx_dictInsert_self]
  · intro acc r k h hk
    simp [indexStep, h, lookupIdx_dictInsert_ne _ _ _ _ hk]

/-- Closed witness for C2 at concrete rows: an all-empty row is not
entered, a row with one truthy value is entered under its key. -/
theorem C2_index_entry_condition_witness :
    rowHasValue ⟨1, "a", "", "", Value.vnone, Value.vstr "", Value.vint 0⟩ = false
    ∧ indexStep [] ⟨1, "a", "", "", Value.vnone, Value.vstr "", Value.vint 0⟩ = []
    ∧ rowHasValue ⟨2, "", "", "Cash", Value.vint 5, Value.vnone, Value.vnone⟩ = true
    ∧ lookupIdx (indexStep [] ⟨2, "", "", "Cash", Value.vint 5, Value.vnone, Value.vnone⟩)
        (rowKey ⟨2, "", "", "Cash", Value.vint 5, Value.vnone, Value.vnone⟩)
        = some (Value.vint 5, Value.vnone, Value.vnone) :=
  ⟨by decide,
   C2_index_entry_condition.2.1 [] _ (by decide),
   by decide,
   C2_index_entry_condition.2.2.1 [] _ (by decide)⟩

/-- The example index of specification section 8. -/
def cashIndex : SourceIndex :=
  [("Cash", (Value.vint 100, Value.vint 200, Value.vint 300)),
   ("Accounts Receivable", (Value.vint 10, Value.vint 20, Value.vint 30))]

theorem rawWrites_processRow_none (md : RuleSet) (sd : SourceIndex) (rd : DstRow)
    (m : Method) (t : String) (hk : rd.A ≠ "")
    (hr : lookupRule md rd.A = some (m, t)) (hs : search_map sd m t = none) :
    rawWrites (processRow md sd rd) =
      [("B", rd.row, Value.vstr "0"), ("D", rd.row, Value.vstr "0"),
       ("F", rd.row, Value.vstr "0")] := by
  by_cases h5 : rd.row > 5 <;>
    simp [processRow, hk, hr, hs, h5, rawWrites_append, rawWrites]

theorem rawWrites_processRow_some (md : RuleSet) (sd : SourceIndex) (rd : DstRow)
    (m : Method) (t : String) (v0 v1 v2 : Value) (hk : rd.A ≠ "")
    (hr : lookupRule md rd.A = some (m, t))
    (hs : search_map sd m t = some (v0, v1, v2)) :
    rawWrites (processRow md sd rd) =
      [("B", rd.row, v0), ("D", rd.row, v1), ("F", rd.row, v2)] := by
  by_cases h5 : rd.row > 5 <;>
    simp [processRow, hk, hr, hs, h5, rawWrites_append, rawWrites]

/-- C3: for every destination row whose column-A keyword is present in
the RuleSet and whose resolution returns None, the driver writes exactly
the literal string "0" to each of columns B, D and F of that row. -/
theorem C3_zero_fill (md : RuleSet) (sd : SourceIndex) (rd : DstRow)
    (m : Method) (t : String) (hk : rd.A ≠ "")
    (hr : lookupRule md rd.A = some (m, t)) (hs : search_map sd m t = none) :
    rawWrites (processRow md sd rd) =
      [("B", rd.row, Value.vstr "0"), ("D", rd.row, Value.vstr "0"),
       ("F", rd.row, Value.vstr "0")] :=
  rawWrites_processRow_none md sd rd m t hk hr hs

/-- Closed witness for C3: the "Missing"/"Nonexistent" example of
specification section 8. -/
theorem C3_zero_fill_witness :
    rawWrites (processRow [("Missing", (Method.exact, "Nonexistent"))] cashIndex
        ⟨6, "Missing"⟩) =
      [("B", 6, Value.vstr "0"), ("D", 6, Value.vstr "0"), ("F", 6, Value.vstr "0")] :=
  C3_zero_fill [("Missing", (Method.exact, "Nonexistent"))] cashIndex ⟨6, "Missing"⟩
    Method.exact "Nonexistent" (by decide) rfl (by decide)

/-- C5: a destination row whose column-A keyword is empty, or whose
keyword is absent from the RuleSet, produces no side effect at all:
in particular no write to columns B, D or F. -/
theorem C5_skip_uncovered (md : RuleSet) (sd : SourceIndex) (rd : DstRow)
    (h : rd.A = "" ∨ lookupRule md rd.A = none) :
    processRow md sd rd = [] := by
  rcases h with h | h
  · simp [processRow, h]
  · by_cases hk : rd.A = ""
    · simp [processRow, hk]
    · simp [processRow, hk, h]

/-- Closed witness for C5: an empty keyword and an uncovered keyword. -/
theorem C5_skip_uncovered_witness :
    processRow [("Missing", (Method.exact, "Nonexistent"))] cashIndex ⟨9, ""⟩ = []
    ∧ processRow [("Missing", (Method.exact, "Nonexistent"))] cashIndex ⟨9, "Other"⟩ = [] :=
  ⟨C5_skip_uncovered _ cashIndex ⟨9, ""⟩ (Or.inl rfl),
   C5_skip_uncovered _ cashIndex ⟨9, "Other"⟩ (Or.inr (by decide))⟩

/-- C6: when the keyword resolves to a value tuple, the driver writes
the three components positionally: component 0 to column B, component 1
to column D, component 2 to column F. -/
theorem C6_positional_write (md : RuleSet) (sd : SourceIndex) (rd : DstRow)
    (m : Method) (t : String) (v0 v1 v2 : Value) (hk : rd.A ≠ "")
    (hr : lookupRule md rd.A = some (m, t))
    (hs : search_map sd m t = some (v0, v1, v2)) :
    rawWrites (processRow md sd rd) =
      [("B", rd.row, v0), ("D", rd.row, v1), ("F", rd.row, v2)] :=
  rawWrites_processRow_some md sd rd m t v0 v1 v2 hk hr hs

/-- Closed witness for C6: the "Cash In Bank" starts-rule example. -/
theorem C6_positional_write_witness :
    rawWrites (processRow [("Cash In Bank", (Method.starts, "Cash"))] cashIndex
        ⟨8, "Cash In Bank"⟩) =
      [("B", 8, Value.vint 100), ("D", 8, Value.vint 200), ("F", 8, Value.vint 300)] :=
  C6_positional_write [("Cash In Bank", (Method.starts, "Cash"))] cashIndex
    ⟨8, "Cash In Bank"⟩ Method.starts "Cash"
    (Value.vint 100) (Value.vint 200) (Value.vint 300) (by decide) rfl (by decide)

/-- C7: the numeric display format is never applied to a destination
row with row number at most 5; for a row with row number greater than 5
that passes the keyword checks (non-empty keyword present in the
RuleSet), the format is applied to columns B, D and F whether or not
the match resolution succeeds. -/
theorem C7_number_format :
    (∀ (md : RuleSet) (sd : SourceIndex) (rd : DstRow), rd.row ≤ 5 →
        fmtWrites (processRow md sd rd) = [])
    ∧ (∀ (md : RuleSet) (sd : SourceIndex) (rd : DstRow) (m : Method) (t : String),
        rd.row > 5 → rd.A ≠ "" → lookupRule md rd.A = some (m, t) →
        fmtWrites (processRow md sd rd) =
          [("B", rd.row, NUMBER_FORMAT), ("D", rd.row, NUMBER_FORMAT),
           ("F", rd.row, NUMBER_FORMAT)]) := by
  constructor
  · intro md sd rd h
    have h5 : ¬ rd.row > 5 := by omega
    by_cases hk : rd.A = ""
    · simp [processRow, hk, fmtWrites]
    · cases hr : lookupRule md rd.A with
      | none => simp [processRow, hk, hr, fmtWrites]
      | some mt =>
        obtain ⟨m, t⟩ := mt
        cases hs : search_map sd m t with
        | none => simp [processRow, hk, hr, hs, h5, fmtWrites_append, fmtWrites]
        | some v =>
          obtain ⟨v0, v1, v2⟩ := v
          simp [processRow, hk, hr, hs, h5, fmtWrites_append, fmtWrites]
  · intro md sd rd m t h5 hk hr
    cases hs : search_map sd m t with
    | none => simp [processRow, hk, hr, hs, h5, fmtWrites_append, fmtWrites]
    | some v =>
      obtain ⟨v0, v1, v2⟩ := v
      simp [processRow, hk, hr, hs, h5, fmtWrites_append, fmtWrites]

/-- Closed witness for C7: no format on row 5 even though a value is
written; format on row 6 both on a hit and on a miss. -/
theorem C7_number_format_witness :
    fmtWrites (processRow [("Cash In Bank", (Method.starts, "Cash"))] cashIndex
        ⟨5, "Cash In Bank"⟩) = []
    ∧ fmtWrites (processRow [("Cash In Bank", (Method.starts, "Cash"))] cashIndex
        ⟨6, "Cash In Bank"⟩) =
        [("B", 6, NUMBER_FORMAT), ("D", 6, NUMBER_FORMAT), ("F", 6, NUMBER_FORMAT)]
    ∧ fmtWrites (processRow [("Missing", (Method.exact, "Nonexistent"))] cashIndex
        ⟨6, "Missing"⟩) =
        [("B", 6, NUMBER_FORMAT), ("D", 6, NUMBER_FORMAT), ("F", 6, NUMBER_FORMAT)] :=
  ⟨C7_number_format.1 _ cashIndex ⟨5, "Cash In Bank"⟩ (by decide),
   C7_number_format.2 _ cashIndex ⟨6, "Cash In Bank"⟩ Method.starts "Cash"
     (by decide) (by decide) rfl,
   C7_number_format.2 _ cashIndex ⟨6, "Missing"⟩ Method.exact "Nonexistent"
     (by decide) (by decide) rfl⟩

/-- C8: a visited, rule-covered destination row always receives exactly
three raw writes, to columns B, D and F of that row, and they are either
the three resolved values or three zero-fills; no partial write exists. -/
theorem C8_no_partial_write (md : RuleSet) (sd : SourceIndex) (rd : DstRow)
    (m : Method) (t : String) (hk : rd.A ≠ "")
    (hr : lookupRule md rd.A = some (m, t)) :
    ∃ v0 v1 v2 : Value,
      rawWrites (processRow md sd rd) =
        [("B", rd.row, v0), ("D", rd.row, v1), ("F", rd.row, v2)]
      ∧ ((search_map sd m t = none
            ∧ v0 = Value.vstr "0" ∧ v1 = Value.vstr "0" ∧ v2 = Value.vstr "0")
         ∨ search_map sd m t = some (v0, v1, v2)) := by
  cases hs : search_map sd m t with
  | none =>
    exact ⟨_, _, _, rawWrites_processRow_none md sd rd m t hk hr hs,
      Or.inl ⟨rfl, rfl, rfl, rfl⟩⟩
  | some v =>
    obtain ⟨v0, v1, v2⟩ := v
    exact ⟨v0, v1, v2, rawWrites_processRow_some md sd rd m t v0 v1 v2 hk hr hs,
      Or.inr rfl⟩

/-- Closed witness for C8 at a concrete covered row. -/
theorem C8_no_partial_write_witness :
    ∃ v0 v1 v2 : Value,
      rawWrites (processRow [("AR", (Method.contains, "Receivable"))] cashIndex
          ⟨10, "AR"⟩) =
        [("B", 10, v0), ("D", 10, v1), ("F", 10, v2)]
      ∧ ((search_map cashIndex Method.contains "Receivable" = none
            ∧ v0 = Value.vstr "0" ∧ v1 = Value.vstr "0" ∧ v2 = Value.vstr "0")
         ∨ search_map cashIndex Method.contains "Receivable" = some (v0, v1, v2)) :=
  C8_no_partial_write [("AR", (Method.contains, "Receivable"))] cashIndex
    ⟨10, "AR"⟩ Method.contains "Receivable" (by decide) rfl

/-- The key at some position of the index satisfies the test, its value
is `v`, and every key at an earlier position fails the test. -/
def FirstSat (idx : SourceIndex) (p : String → Bool) (v : VT) : Prop :=
  ∃ l1 k l2, idx = l1 ++ (k, v) :: l2 ∧ p k = true ∧ ∀ e ∈ l1, p e.1 = false

/-- No key of the index satisfies the test. -/
def NoSat (idx : SourceIndex) (p : String → Bool) : Prop :=
  ∀ e ∈ idx, p e.1 = false

theorem firstMatch_eq_some_iff (idx : SourceIndex) (p : String → Bool) (v : VT) :
    firstMatch idx p = some v ↔ FirstSat idx p v := by
  induction idx with
  | nil =>
    constructor
    · intro h; cases h
    · rintro ⟨l1, k, l2, heq, -, -⟩
      exact absurd heq (by simp)
  | cons e rest ih =>
    obtain ⟨k0, v0⟩ := e
    by_cases hp : p k0 = true
    · have hstep : firstMatch ((k0, v0) :: rest) p = some v0 := by
        simp [firstMatch, hp]
      rw [hstep]
      constructor
      · intro h
        injection h with h
        exact ⟨[], k0, rest, by simp [h], hp, by simp⟩
      · rintro ⟨l1, k, l2, heq, hk, hall⟩
        cases l1 with
        | nil =>
          simp only [List.nil_append, List.cons.injEq, Prod.mk.injEq] at heq
          rw [heq.1.2]
        | cons e1 l1 =>
          simp only [List.cons_append, List.cons.injEq] at heq
          have hfalse : p k0 = false := by
            have h2 := hall e1 (by simp)
            rw [← heq.1] at h2
            exact h2
          simp [hfalse] at hp
    · have hpf : p k0 = false := by simpa using hp
      have hstep : firstMatch ((k0, v0) :: rest) p = firstMatch rest p := by
        simp [firstMatch, hpf]
      rw [hstep, ih]
      constructor
      · rintro ⟨l1, k, l2, heq, hk, hall⟩
        refine ⟨(k0, v0) :: l1, k, l2, by rw [heq]; simp, hk, ?_⟩
        intro e he
        rcases List.mem_cons.mp he with he | he
        · rw [he]; exact hpf
        · exact hall e he
      · rintro ⟨l1, k, l2, heq, hk, hall⟩
        cases l1 with
        | nil =>
          simp only [List.nil_append, List.cons.injEq, Prod.mk.injEq] at heq
          rw [heq.1.1] at hpf
          simp [hk] at hpf
        | cons e1 l1 =>
          simp only [List.cons_append, List.cons.injEq] at heq
          exact ⟨l1, k, l2, heq.2, hk, fun e he => hall e (List.mem_cons_of_mem e1 he)⟩

theorem firstMatch_eq_none_iff (idx : SourceIndex) (p : String → Bool) :
    firstMatch idx p = none ↔ NoSat idx p := by
  induction idx with
  | nil => simp [firstMatch, NoSat]
  | cons e rest ih =>
    obtain ⟨k0, v0⟩ := e
    by_cases hp : p k0 = true
    · simp [firstMatch, NoSat, hp]
    · have hpf : p k0 = false := by simpa using hp
      simp [firstMatch, NoSat, hpf, ih]

/-- C4: for each of the methods exact, starts, ends, contains and re,
the resolver returns the value of the first key in insertion order that
passes the method's case-sensitive string test (equality, initial run,
final run, substring, regular-expression search), and `none` when no
key passes; it resolves the two concrete examples of specification
section 8 accordingly. -/
theorem C4_resolver_first_match :
    (∀ (idx : SourceIndex) (term : String) (v : VT),
        search_map idx .exact term = some v ↔ FirstSat idx (fun k => k = term) v)
    ∧ (∀ (idx : SourceIndex) (term : String),
        search_map idx .exact term = none ↔ NoSat idx (fun k => k = term))
    ∧ (∀ (idx : SourceIndex) (term : String) (v : VT),
        search_map idx .starts term = some v ↔ FirstSat idx (fun k => strStarts k term) v)
    ∧ (∀ (idx : SourceIndex) (term : String),
        search_map idx .starts term = none ↔ NoSat idx (fun k => strStarts k term))
    ∧ (∀ (idx : SourceIndex) (term : String) (v : VT),
        search_map idx .ends term = some v ↔ FirstSat idx (fun k => strEnds k term) v)
    ∧ (∀ (idx : SourceIndex) (term : String),
        search_map idx .ends term = none ↔ NoSat idx (fun k => strEnds k term))
    ∧ (∀ (idx : SourceIndex) (term : String) (v : VT),
        search_map idx .contains term = some v ↔
          FirstSat idx (fun k => strContainsSub k term) v)
    ∧ (∀ (idx : SourceIndex) (term : String),
        search_map idx .contains term = none ↔ NoSat idx (fun k => strContainsSub k term))
    ∧ (∀ (idx : SourceIndex) (term : String) (r : Regex) (v : VT),
        compileRegex term = some r →
        (search_map idx .re term = some v ↔ FirstSat idx (fun k => rsearch r k) v))
    ∧ (∀ (idx : SourceIndex) (term : String) (r : Regex),
        compileRegex term = some r →
        (search_map idx .re term = none ↔ NoSat idx (fun k => rsearch r k)))
    ∧ search_map cashIndex .starts "Cash" =
        some (Value.vint 100, Value.vint 200, Value.vint 300)
    ∧ search_map cashIndex .contains "Receivable" =
        some (Value.vint 10, Value.vint 20, Value.vint 30) := by
  refine ⟨fun idx term v => firstMatch_eq_some_iff idx _ v,
          fun idx term => firstMatch_eq_none_iff idx _,
          fun idx term v => firstMatch_eq_some_iff idx _ v,
          fun idx term => firstMatch_eq_none_iff idx _,
          fun idx term v => firstMatch_eq_some_iff idx _ v,
          fun idx term => firstMatch_eq_none_iff idx _,
          fun idx term v => firstMatch_eq_some_iff idx _ v,
          fun idx term => firstMatch_eq_none_iff idx _,
          ?_, ?_, by decide, by decide⟩
  · intro idx term r v h
    simp only [search_map, h]
    exact firstMatch_eq_some_iff idx _ v
  · intro idx term r h
    simp only [search_map, h]
    exact firstMatch_eq_none_iff idx _

/-- Closed witness for C4: a compiled pattern resolving against the
example index through the regular-expression branch. -/
theorem C4_resolver_first_match_witness :
    compileRegex "C.sh" =
      some (Regex.seqR (Regex.charR 'C') (Regex.seqR Regex.dotR
        (Regex.seqR (Regex.charR 's') (Regex.seqR (Regex.charR 'h') Regex.emptyR))))
    ∧ search_map cashIndex Method.re "C.sh" =
        some (Value.vint 100, Value.vint 200, Value.vint 300) := by
  refine ⟨by decide, ?_⟩
  exact (C4_resolver_first_match.2.2.2.2.2.2.2.2.1 cashIndex "C.sh"
      (Regex.seqR (Regex.charR 'C') (Regex.seqR Regex.dotR
        (Regex.seqR (Regex.charR 's') (Regex.seqR (Regex.charR 'h') Regex.emptyR))))
      (Value.vint 100, Value.vint 200, Value.vint 300) (by decide)).mpr
    ⟨[], "Cash", [("Accounts Receivable", (Value.vint 10, Value.vint 20, Value.vint 30))],
      rfl, by decide, by simp⟩

/-- C9: the each method ignores the SourceIndex and splits the term on
commas into up to three literal sub-values assigned positionally, with
missing positions treated as empty; the term "A,B,C" resolves to the
tuple ("A", "B", "C"). -/
theorem C9_each_literal_split :
    (∀ (idx : SourceIndex) (term : String),
        search_map idx .each term =
          some (Value.vstr ((splitComma term).getD 0 ""),
                Value.vstr ((splitComma term).getD 1 ""),
                Value.vstr ((splitComma term).getD 2 "")))
    ∧ (∀ (idx idx2 : SourceIndex) (term : String),
        search_map idx .each term = search_map idx2 .each term)
    ∧ search_map cashIndex .each "A,B,C" =
        some (Value.vstr "A", Value.vstr "B", Value.vstr "C") :=
  ⟨fun _ _ => rfl, fun _ _ _ => rfl, by decide⟩

/-- C10: a re rule whose term does not compile as a regular expression
behaves as a lookup miss: the resolver returns `none`, and the driver
zero-fills columns B, D and F of the affected destination row instead
of aborting; the pattern "*" is such a term. -/
theorem C10_invalid_regex_no_match :
    (∀ (idx : SourceIndex) (term : String), compileRegex term = none →
        search_map idx .re term = none)
    ∧ (∀ (md : RuleSet) (sd : SourceIndex) (rd : DstRow) (term : String),
        rd.A ≠ "" → lookupRule md rd.A = some (.re, term) →
        compileRegex term = none →
        rawWrites (processRow md sd rd) =
          [("B", rd.row, Value.vstr "0"), ("D", rd.row, Value.vstr "0"),
           ("F", rd.row, Value.vstr "0")])
    ∧ compileRegex "*" = none := by
  have h1 : ∀ (idx : SourceIndex) (term : String), compileRegex term = none →
      search_map idx .re term = none := by
    intro idx term h
    simp [search_map, h]
  refine ⟨h1, ?_, by decide⟩
  intro md sd rd term hk hr hc
  exact rawWrites_processRow_none md sd rd .re term hk hr (h1 sd term hc)

/-- Closed witness for C10: the invalid pattern "*" zero-fills a
covered destination row. -/
theorem C10_invalid_regex_no_match_witness :
    compileRegex "*" = none
    ∧ rawWrites (processRow [("Bad", (Method.re, "*"))] cashIndex ⟨7, "Bad"⟩) =
        [("B", 7, Value.vstr "0"), ("D", 7, Value.vstr "0"), ("F", 7, Value.vstr "0")] :=
  ⟨C10_invalid_regex_no_match.2.2,
   C10_invalid_regex_no_match.2.1 [("Bad", (Method.re, "*"))] cashIndex ⟨7, "Bad"⟩ "*"
     (by decide) rfl (by decide)⟩

end PnlMap
